import Mathlib

/-!
Verification of the tap13 TAP (Test Anything Protocol) version-13 parser.

The Go package parses a sequence of input lines into a `Results` structure
via a three-state machine (`findVersionString`, `storeTestMetadata`,
`storeYaml`), maintains aggregate counters, and renders a pass/fail verdict
and a textual report.  Below, the package is shallowly embedded: lines are
lists of characters, the regular expressions are replaced by equivalent
explicit matching functions, `strconv.Atoi` on digit strings is modelled
with its 64-bit overflow behaviour, and the parse loop is a fold over the
input lines.
-/

set_option maxRecDepth 100000

namespace Tap13

/-- A line of input: Go strings modelled as lists of characters. -/
abbrev Line := List Char

/-- Go regexp character class \s, i.e. [\t\n\f\r ]. -/
def goIsSpace (c : Char) : Bool :=
  c.toNat = 9 || c.toNat = 10 || c.toNat = 12 || c.toNat = 13 || c.toNat = 32

/-- Go regexp character class \w, i.e. [0-9A-Za-z_]. -/
def isWordChar (c : Char) : Bool :=
  c.isAlphanum || c = '_'

/-- Go unicode.IsSpace, as used by strings.TrimSpace. -/
def unicodeIsSpace (c : Char) : Bool :=
  let n := c.toNat
  (9 ≤ n && n ≤ 13) || n = 32 || n = 0x85 || n = 0xA0 || n = 0x1680 ||
  (0x2000 ≤ n && n ≤ 0x200A) || n = 0x2028 || n = 0x2029 || n = 0x202F ||
  n = 0x205F || n = 0x3000

/-- Go strings.TrimSpace. -/
def trimSpace (l : Line) : Line :=
  ((l.dropWhile unicodeIsSpace).reverse.dropWhile unicodeIsSpace).reverse

/-- Lowercase an ASCII letter; strings.EqualFold restricted to the ASCII
arguments arising here (directive words match \w*). -/
def asciiLower (c : Char) : Char :=
  if 'A' ≤ c && c ≤ 'Z' then Char.ofNat (c.toNat + 32) else c

/-- Go strings.EqualFold on ASCII strings. -/
def eqFold (a b : Line) : Bool :=
  a.map asciiLower = b.map asciiLower

/-- Strip a literal pattern from the front of a line; `none` if the line
does not start with the pattern. -/
def stripLit : Line → Line → Option Line
  | [], l => some l
  | _ :: _, [] => none
  | p :: ps, c :: cs => if c = p then stripLit ps cs else none

/-- Numeric value of a digit string. -/
def digitsToNat (ds : Line) : Nat :=
  ds.foldl (fun a c => 10 * a + (c.toNat - 48)) 0

/-- Largest value of a 64-bit signed Go int. -/
def maxGoInt : Nat := 9223372036854775807

/-- strconv.Atoi on a nonempty digit string: the parsed value and a success
flag; on overflow the value is clamped to the largest int64 and the flag is
false (ErrRange). -/
def goAtoi (ds : Line) : Int × Bool :=
  let n := digitsToNat ds
  if n ≤ maxGoInt then ((n : Int), true) else ((maxGoInt : Int), false)

/-- Matcher for `^TAP version (\d+)`: the captured digit run, if the line
matches. -/
def versionCapture (l : Line) : Option Line :=
  match stripLit "TAP version ".toList l with
  | none => none
  | some r =>
    let ds := r.takeWhile Char.isDigit
    if ds.isEmpty then none else some ds

/-- Matcher for `^Bail out!\s*(\S.*)?$`: the captured reason (possibly
empty), if the line matches.  The capture keeps everything from the first
non-whitespace character to the end of the line; `.` cannot cross a newline
character, so a newline after that point defeats the match. -/
def bailOutCapture (l : Line) : Option Line :=
  match stripLit "Bail out!".toList l with
  | none => none
  | some r =>
    let r2 := r.dropWhile goIsSpace
    if r2.isEmpty then some []
    else if r2.contains '\n' then none
    else some r2

/-- Shared tail of the test-line matcher: match `ok\b(.*)` against a line,
returning the `(.*)` capture. -/
def okTail (l : Line) : Option Line :=
  match stripLit "ok".toList l with
  | none => none
  | some rest =>
    match rest with
    | [] => some []
    | c :: _ =>
      if isWordChar c then none
      else some (rest.takeWhile (fun x => x ≠ '\n'))

/-- Matcher for `^(not )?ok\b(.*)`: whether the `not ` group matched, and
the trailing capture. -/
def testLineCapture (l : Line) : Option (Bool × Line) :=
  match stripLit "not ".toList l with
  | some r =>
    match okTail r with
    | some cap => some (true, cap)
    | none => (okTail l).map (fun cap => (false, cap))
  | none => (okTail l).map (fun cap => (false, cap))

/-- Matcher for `^\d+\.\.(\d+)$`: the captured second digit run. -/
def planCapture (l : Line) : Option Line :=
  let d1 := l.takeWhile Char.isDigit
  if d1.isEmpty then none
  else
    match stripLit "..".toList (l.drop d1.length) with
    | none => none
    | some r =>
      if r.isEmpty then none
      else if r.all Char.isDigit then some r else none

/-- The capture groups of `\s*(\d*)?\s*([^#]*)(#\s*((\w*)\s*.*)\s*)?`
applied to the text following `ok` on a test-result line. -/
structure OptParts where
  num : Line
  desc : Line
  dirWord : Line
  dirText : Line
deriving DecidableEq

/-- Decompose the text after `ok` into number, description and directive
captures, following the greedy leftmost semantics of the Go pattern. -/
def optionalParts (c : Line) : OptParts :=
  let s1 := c.dropWhile goIsSpace
  let num := s1.takeWhile Char.isDigit
  let s2 := (s1.drop num.length).dropWhile goIsSpace
  let descRaw := s2.takeWhile (fun x => x ≠ '#')
  let s3 := s2.drop descRaw.length
  match s3 with
  | '#' :: t =>
    let t2 := t.dropWhile goIsSpace
    { num := num, desc := descRaw, dirWord := t2.takeWhile isWordChar, dirText := t2 }
  | _ => { num := num, desc := descRaw, dirWord := [], dirText := [] }

/-- Matcher for `\s*#(.*)$`: capture after the first `#` that is not
followed by a newline character anywhere in its suffix. -/
def diagCapture : Line → Option Line
  | [] => none
  | c :: t =>
    if c = '#' then
      if t.contains '\n' then diagCapture t else some t
    else diagCapture t

/-- Matcher for `^\s*---$`. -/
def yamlStartMatch (l : Line) : Bool :=
  l.dropWhile goIsSpace = "---".toList

/-- Matcher for `^\s*\.\.\.$`. -/
def yamlStopMatch (l : Line) : Bool :=
  l.dropWhile goIsSpace = "...".toList

/-- The result of one test, mirroring the Go `Test` struct. -/
structure Test where
  TestNumber : Int
  Passed : Bool
  Failed : Bool
  Skipped : Bool
  Todo : Bool
  Description : Line
  DirectiveText : Line
  Diagnostics : List Line
  YamlBytes : Line
deriving DecidableEq

/-- The Go zero value `Test{}`. -/
def blankTest : Test :=
  { TestNumber := 0, Passed := false, Failed := false, Skipped := false,
    Todo := false, Description := [], DirectiveText := [], Diagnostics := [],
    YamlBytes := [] }

/-- The aggregate of an entire run, mirroring the Go `Results` struct. -/
structure Results where
  ExpectedTests : Int
  TotalTests : Int
  PassedTests : Int
  FailedTests : Int
  SkippedTests : Int
  TodoTests : Int
  TapVersion : Int
  BailOut : Bool
  BailOutReason : Line
  Tests : List Test
  Lines : List Line
  Explanation : List Line
deriving DecidableEq

/-- The three parser states. -/
inductive MState where
  | findVersionString
  | storeTestMetadata
  | storeYaml
deriving DecidableEq

/-- The loop state of `Parse`: machine state, the staged test, the two
flags and the accumulated results. -/
structure PSt where
  state : MState
  currentTest : Option Test
  foundTestPlan : Bool
  foundAllTests : Bool
  results : Results
deriving DecidableEq

/-- Classification of a counted test-result line by the elif chain on the
directive word and the `not ` group. -/
inductive Outcome where
  | skip
  | todo
  | fail
  | pass
deriving DecidableEq

/-- Which branch of the classification chain fires. -/
def outcomeOf (isNot : Bool) (dirWord : Line) : Outcome :=
  if eqFold dirWord "skip".toList then .skip
  else if eqFold dirWord "todo".toList then .todo
  else if isNot then .fail
  else .pass

/-- Decode and count one test-result line (the branch taken when the
run-cap has not been reached): build the staged `Test`, bump the counters,
and set `foundAllTests` when the total reaches the plan. -/
def countTestLine (s : PSt) (isNot : Bool) (content : Line) : PSt :=
  let parts := optionalParts content
  let numVal : Int :=
    if parts.num.isEmpty then 0
    else
      let p := goAtoi parts.num
      if p.2 then p.1 else -1
  let oc := outcomeOf isNot parts.dirWord
  let t : Test :=
    { TestNumber := numVal
      Passed := decide (oc = .pass)
      Failed := decide (oc = .fail)
      Skipped := decide (oc = .skip)
      Todo := decide (oc = .todo)
      Description := trimSpace parts.desc
      DirectiveText := if parts.dirWord.isEmpty then [] else parts.dirText
      Diagnostics := []
      YamlBytes := [] }
  let newTotal := s.results.TotalTests + 1
  { state := s.state
    currentTest := some t
    foundTestPlan := s.foundTestPlan
    foundAllTests := if newTotal = s.results.ExpectedTests then true else s.foundAllTests
    results :=
      { s.results with
        TotalTests := newTotal
        SkippedTests := if oc = .skip then s.results.SkippedTests + 1 else s.results.SkippedTests
        TodoTests := if oc = .todo then s.results.TodoTests + 1 else s.results.TodoTests
        FailedTests := if oc = .fail then s.results.FailedTests + 1 else s.results.FailedTests
        PassedTests := if oc = .pass then s.results.PassedTests + 1 else s.results.PassedTests } }

/-- The part of the `storeTestMetadata` dispatch after the bail-out and
test-plan checks: test-result line, data-block start, or diagnostic. -/
def stepMetaRest (s : PSt) (line : Line) : PSt :=
  match testLineCapture line with
  | some (isNot, content) =>
    let s1 :=
      match s.currentTest with
      | some t => { s with results := { s.results with Tests := s.results.Tests ++ [t] } }
      | none => s
    if s.foundAllTests then { s1 with currentTest := some blankTest }
    else countTestLine s1 isNot content
  | none =>
    if yamlStartMatch line then { s with state := .storeYaml }
    else
      match diagCapture line with
      | some d =>
        let dl := trimSpace d
        if dl.isEmpty then s
        else
          match s.currentTest with
          | some t =>
            { s with currentTest := some { t with Diagnostics := t.Diagnostics ++ [dl] } }
          | none =>
            { s with results := { s.results with Explanation := s.results.Explanation ++ [dl] } }
      | none => s

/-- One line in the `storeTestMetadata` state. -/
def stepMeta (s : PSt) (line : Line) : PSt :=
  match bailOutCapture line with
  | some r =>
    { s with results := { s.results with BailOut := true, BailOutReason := r } }
  | none =>
    match (if s.foundTestPlan then none else planCapture line) with
    | some ds =>
      let v := goAtoi ds
      let s1 := { s with results := { s.results with ExpectedTests := v.1 } }
      if v.2 then stepMetaRest s1 line else s1
    | none => stepMetaRest s line

/-- One line in the `findVersionString` state. -/
def stepFindVersion (s : PSt) (line : Line) : PSt :=
  match versionCapture line with
  | none => s
  | some ds =>
    let v := goAtoi ds
    if v.2 then
      { s with results := { s.results with TapVersion := v.1 }, state := .storeTestMetadata }
    else
      { s with results := { s.results with TapVersion := v.1 } }

/-- One line in the `storeYaml` state. -/
def stepYaml (s : PSt) (line : Line) : PSt :=
  if yamlStopMatch line then { s with state := .storeTestMetadata }
  else
    match s.currentTest with
    | some t =>
      { s with currentTest := some { t with YamlBytes := t.YamlBytes ++ line ++ ['\n'] } }
    | none => s

/-- One iteration of the parse loop. -/
def step (s : PSt) (line : Line) : PSt :=
  match s.state with
  | .findVersionString => stepFindVersion s line
  | .storeTestMetadata => stepMeta s line
  | .storeYaml => stepYaml s line

/-- The initial loop state of `Parse`. -/
def initSt (lines : List Line) : PSt :=
  { state := .findVersionString
    currentTest := none
    foundTestPlan := false
    foundAllTests := false
    results :=
      { ExpectedTests := -1, TotalTests := 0, PassedTests := 0, FailedTests := 0,
        SkippedTests := 0, TodoTests := 0, TapVersion := -1, BailOut := false,
        BailOutReason := [], Tests := [], Lines := lines, Explanation := [] } }

/-- The Go `Parse` function: fold the loop over the lines, then append the
still-staged test, if any. -/
def Parse (lines : List Line) : Results :=
  let fin := lines.foldl step (initSt lines)
  match fin.currentTest with
  | some t => { fin.results with Tests := fin.results.Tests ++ [t] }
  | none => fin.results

/-- The Go `Results.IsPassing` method. -/
def Results.IsPassing (r : Results) : Bool :=
  if r.TapVersion < 0 then false
  else if r.BailOut then false
  else
    let testCount := if 0 ≤ r.ExpectedTests then r.ExpectedTests else r.TotalTests
    decide (r.TodoTests + r.SkippedTests + r.PassedTests = testCount)

/-- Decimal rendering of a Go int, as fmt %d prints it. -/
def intRepr (i : Int) : Line :=
  if i < 0 then '-' :: Nat.toDigits 10 i.natAbs else Nat.toDigits 10 i.toNat

/-- The Go `Results.String` method: the textual report. -/
def Results.String (r : Results) : Line :=
  (if r.IsPassing then " Overall result: PASS\n".toList else " Overall result: FAIL\n".toList)
  ++ (if r.TotalTests = 0 ∨ r.PassedTests ≠ r.TotalTests then
        "Total tests run: ".toList ++ intRepr r.TotalTests ++ ['\n'] else [])
  ++ (if 0 < r.ExpectedTests ∧ r.ExpectedTests ≠ r.TotalTests then
        " Expected tests: ".toList ++ intRepr r.ExpectedTests ++ ['\n'] else [])
  ++ (if 0 < r.ExpectedTests ∧ r.TotalTests < r.ExpectedTests then
        "  Missing tests: ".toList ++ intRepr (r.ExpectedTests - r.TotalTests) ++ ['\n'] else [])
  ++ (if 0 < r.PassedTests then
        "   Passed tests: ".toList ++ intRepr r.PassedTests ++ ['\n'] else [])
  ++ (if 0 < r.FailedTests then
        "   Failed tests: ".toList ++ intRepr r.FailedTests ++ ['\n'] else [])
  ++ (if 0 < r.SkippedTests then
        "  Skipped tests: ".toList ++ intRepr r.SkippedTests ++ ['\n'] else [])
  ++ (if 0 < r.TodoTests then
        "     TODO tests: ".toList ++ intRepr r.TodoTests ++ ['\n'] else [])
  ++ (if r.BailOut then
        "     Bailed out: ".toList
        ++ (if r.BailOutReason.isEmpty then "(no reason given)".toList else r.BailOutReason)
        ++ ['\n'] else [])

/-! ### Character-class facts -/

/-- A decimal digit has code point between 48 and 57. -/
theorem isDigit_bounds {c : Char} (h : c.isDigit = true) :
    48 ≤ c.toNat ∧ c.toNat ≤ 57 := by
  unfold Char.isDigit at h
  rw [Bool.and_eq_true, decide_eq_true_eq, decide_eq_true_eq] at h
  exact ⟨UInt32.le_toNat_of_le (by decide) h.1, UInt32.toNat_le_of_le (by decide) h.2⟩

/-- A decimal digit is not a regexp whitespace character. -/
theorem goIsSpace_eq_false_of_isDigit {c : Char} (h : c.isDigit = true) :
    goIsSpace c = false := by
  obtain ⟨h1, h2⟩ := isDigit_bounds h
  unfold goIsSpace
  simp only [Bool.or_eq_false_iff, decide_eq_false_iff_not]
  omega

/-- A regexp whitespace character is not a decimal digit. -/
theorem isDigit_eq_false_of_goIsSpace {c : Char} (h : goIsSpace c = true) :
    c.isDigit = false := by
  by_contra hne
  rw [Bool.not_eq_false] at hne
  rw [goIsSpace_eq_false_of_isDigit hne] at h
  cases h

/-- A digit is a different character than any character that is not a
digit itself. -/
theorem ne_of_isDigit {c d : Char} (h : c.isDigit = true) (hd : d.isDigit = false) :
    c ≠ d := by
  intro he
  rw [he, hd] at h
  cases h

/-- A regexp whitespace character differs from any non-whitespace one. -/
theorem ne_of_goIsSpace {c d : Char} (h : goIsSpace c = true) (hd : goIsSpace d = false) :
    c ≠ d := by
  intro he
  rw [he, hd] at h
  cases h

/-- Dropping a prefix of whitespace twice is the same as dropping once. -/
theorem dropWhile_dropWhile (p : Char → Bool) (l : Line) :
    (l.dropWhile p).dropWhile p = l.dropWhile p := by
  induction l with
  | nil => rfl
  | cons c t ih =>
    by_cases hc : p c = true
    · simp [List.dropWhile, hc, ih]
    · simp [List.dropWhile, hc]

/-! ### C1: the pass/fail verdict -/

/-- C1.  `IsPassing` returns false when the protocol version is negative;
otherwise false when the run was aborted; otherwise it is true exactly when
the skipped, todo and passed counters sum to the declared plan when one
exists, and to the total otherwise. -/
theorem c1_isPassing_verdict (r : Results) :
    r.IsPassing = true ↔
      (¬ r.TapVersion < 0 ∧ r.BailOut = false ∧
        r.TodoTests + r.SkippedTests + r.PassedTests =
          (if 0 ≤ r.ExpectedTests then r.ExpectedTests else r.TotalTests)) := by
  unfold Results.IsPassing
  split_ifs with h1 h2 h3 <;> simp_all

/-! ### C9: the textual report -/

/-- Modelled from the spec: the report template of the output contract,
each line included exactly when its guard holds, in the fixed order and
column layout of the table. -/
def specReport (r : Results) : Line :=
  (if r.IsPassing then " Overall result: PASS\n".toList else " Overall result: FAIL\n".toList)
  ++ (if r.TotalTests = 0 ∨ r.PassedTests ≠ r.TotalTests then
        "Total tests run: ".toList ++ intRepr r.TotalTests ++ ['\n'] else [])
  ++ (if 0 < r.ExpectedTests ∧ r.ExpectedTests ≠ r.TotalTests then
        " Expected tests: ".toList ++ intRepr r.ExpectedTests ++ ['\n'] else [])
  ++ (if 0 < r.ExpectedTests ∧ r.TotalTests < r.ExpectedTests then
        "  Missing tests: ".toList ++ intRepr (r.ExpectedTests - r.TotalTests) ++ ['\n'] else [])
  ++ (if 0 < r.PassedTests then
        "   Passed tests: ".toList ++ intRepr r.PassedTests ++ ['\n'] else [])
  ++ (if 0 < r.FailedTests then
        "   Failed tests: ".toList ++ intRepr r.FailedTests ++ ['\n'] else [])
  ++ (if 0 < r.SkippedTests then
        "  Skipped tests: ".toList ++ intRepr r.SkippedTests ++ ['\n'] else [])
  ++ (if 0 < r.TodoTests then
        "     TODO tests: ".toList ++ intRepr r.TodoTests ++ ['\n'] else [])
  ++ (if r.BailOut then
        "     Bailed out: ".toList
        ++ (if r.BailOutReason.isEmpty then "(no reason given)".toList else r.BailOutReason)
        ++ ['\n'] else [])

/-- C9.  The rendered report is the concatenation, in the template order,
of exactly the guarded lines of the output contract, and on empty input the
report is precisely the two-line FAIL summary. -/
theorem c9_report_layout :
    (∀ r : Results, r.String = specReport r) ∧
      (Parse []).String = " Overall result: FAIL\nTotal tests run: 0\n".toList :=
  ⟨fun _ => rfl, by decide⟩

/-! ### C3, counterexample: a late plan line defeats the run-cap bound -/

/-- The input of the C3 counterexample: two tests are counted before a
plan declaring a single test arrives. -/
def c3cexLines : List Line :=
  (["TAP version 13", "ok", "ok", "1..1"]).map String.toList

/-- C3 fails on the code: with the plan line after the counted tests the
final total (2) exceeds the declared plan (1). -/
theorem c3_counterexample :
    0 ≤ (Parse c3cexLines).ExpectedTests ∧
      ¬ (Parse c3cexLines).TotalTests ≤ (Parse c3cexLines).ExpectedTests := by
  decide

/-! ### C4, counterexample: a post-cap record carries no flag at all -/

/-- The input of the C4 counterexample: the second `ok` arrives after the
run-cap of the `1..1` plan has been reached. -/
def c4cexLines : List Line :=
  (["TAP version 13", "1..1", "ok", "ok"]).map String.toList

/-- C4 fails on the code: the record staged for a test-result line matched
after the run-cap is the blank record, with none of the four flags true
rather than exactly one. -/
theorem c4_counterexample :
    (Parse c4cexLines).Tests.length = 2 ∧
      ((Parse c4cexLines).Tests.getD 1 blankTest).Passed = false ∧
      ((Parse c4cexLines).Tests.getD 1 blankTest).Failed = false ∧
      ((Parse c4cexLines).Tests.getD 1 blankTest).Skipped = false ∧
      ((Parse c4cexLines).Tests.getD 1 blankTest).Todo = false := by
  decide

/-! ### C6, counterexample: trailing whitespace survives in the reason -/

/-- The input of the C6 counterexample: a bail-out line whose reason has
trailing whitespace. -/
def c6cexLines : List Line :=
  (["TAP version 13", "Bail out! oops "]).map String.toList

/-- C6 fails on the code: the captured reason keeps its trailing blank, so
it differs from the fully trimmed text the claim prescribes. -/
theorem c6_counterexample :
    (Parse c6cexLines).BailOut = true ∧
      (Parse c6cexLines).BailOutReason = "oops ".toList ∧
      trimSpace "oops ".toList = "oops".toList ∧
      ("oops ".toList : Line) ≠ "oops".toList := by
  decide

/-! ### C8: test-number decoding -/

/-- The input of the C8 counterexample: a test numbered zero next to a
test with no number at all. -/
def c8cexLines : List Line :=
  (["TAP version 13", "ok 0 zero", "ok unnumbered"]).map String.toList

/-- C8 fails on the code in its "absent is distinct" part: a test with no
number stores the zero value 0, identical to a sibling whose number parsed
as the concrete integer 0. -/
theorem c8_counterexample :
    ((Parse c8cexLines).Tests.getD 0 blankTest).TestNumber = 0 ∧
      ((Parse c8cexLines).Tests.getD 1 blankTest).TestNumber = 0 := by
  decide

/-- The input of the amended C8 theorem: an overflowing number among
correctly numbered siblings and one unnumbered test. -/
def c8Lines : List Line :=
  (["TAP version 13", "1..4", "ok 1 first",
    "ok 99999999999999999999 second", "ok 3 third", "ok fourth"]).map String.toList

/-- C8, amended.  A number whose parse overflows the signed 64-bit range
stores the explicit sentinel -1 while numerically valid siblings on the
same input keep their correct numbers; an absent number stores the zero
value 0, which is distinct from the sentinel and from parsed values >= 1
but coincides with a parsed 0. -/
theorem c8_amended_numbers :
    ((Parse c8Lines).Tests.map Test.TestNumber) = [1, -1, 3, 0] ∧
      digitsToNat "99999999999999999999".toList > maxGoInt := by
  decide

/-! ### C2: the counter invariant -/

/-- The counter relation of the data model: the total equals the sum of
the four outcome counters and all five are non-negative. -/
def CounterInv (r : Results) : Prop :=
  r.TotalTests = r.PassedTests + r.FailedTests + r.SkippedTests + r.TodoTests ∧
  0 ≤ r.TotalTests ∧ 0 ≤ r.PassedTests ∧ 0 ≤ r.FailedTests ∧
  0 ≤ r.SkippedTests ∧ 0 ≤ r.TodoTests

theorem countTestLine_counterInv {s : PSt} (b : Bool) (c : Line)
    (h : CounterInv s.results) : CounterInv (countTestLine s b c).results := by
  unfold CounterInv at h ⊢
  unfold countTestLine
  dsimp only
  cases h' : outcomeOf b (optionalParts c).dirWord <;> simp [h'] <;> omega

theorem stepMetaRest_counterInv {s : PSt} (l : Line)
    (h : CounterInv s.results) : CounterInv (stepMetaRest s l).results := by
  unfold stepMetaRest
  repeat'
    first
    | exact h
    | exact countTestLine_counterInv _ _ h
    | split
    | (dsimp only; split)

theorem stepMeta_counterInv {s : PSt} (l : Line)
    (h : CounterInv s.results) : CounterInv (stepMeta s l).results := by
  unfold stepMeta
  split
  · exact h
  · split
    · dsimp only
      split
      · exact stepMetaRest_counterInv _ h
      · exact h
    · exact stepMetaRest_counterInv _ h

theorem stepFindVersion_counterInv {s : PSt} (l : Line)
    (h : CounterInv s.results) : CounterInv (stepFindVersion s l).results := by
  unfold stepFindVersion
  split
  · exact h
  · dsimp only
    split
    · exact h
    · exact h

theorem stepYaml_counterInv {s : PSt} (l : Line)
    (h : CounterInv s.results) : CounterInv (stepYaml s l).results := by
  unfold stepYaml
  split
  · exact h
  · split
    · exact h
    · exact h

theorem step_counterInv {s : PSt} (l : Line)
    (h : CounterInv s.results) : CounterInv (step s l).results := by
  unfold step
  cases s.state
  · exact stepFindVersion_counterInv _ h
  · exact stepMeta_counterInv _ h
  · exact stepYaml_counterInv _ h

theorem foldl_counterInv (ls : List Line) (s : PSt)
    (h : CounterInv s.results) : CounterInv ((ls.foldl step s).results) := by
  induction ls generalizing s with
  | nil => exact h
  | cons a t ih => exact ih _ (step_counterInv _ h)

theorem counterInv_parse (lines : List Line)
    (h : CounterInv ((lines.foldl step (initSt lines)).results)) :
    CounterInv (Parse lines) := by
  unfold Parse
  dsimp only
  split
  · unfold CounterInv at h ⊢
    dsimp only
    exact h
  · exact h

/-- C2.  At every intermediate point of the parse (after any prefix of the
input lines) and in the final value, the total-test counter equals the sum
of the passed, failed, skipped and todo counters, and all five counters
are non-negative. -/
theorem c2_counter_invariant (pre suf : List Line) :
    CounterInv ((List.foldl step (initSt (pre ++ suf)) pre).results) ∧
      CounterInv (Parse (pre ++ suf)) := by
  have h0 : CounterInv (initSt (pre ++ suf)).results := by
    unfold CounterInv initSt
    norm_num
  exact ⟨foldl_counterInv _ _ h0, counterInv_parse _ (foldl_counterInv _ _ h0)⟩

/-! ### Frame lemmas for the step function -/

theorem countTestLine_frame (s : PSt) (b : Bool) (c : Line) :
    (countTestLine s b c).results.ExpectedTests = s.results.ExpectedTests ∧
    (countTestLine s b c).results.BailOut = s.results.BailOut ∧
    (countTestLine s b c).results.BailOutReason = s.results.BailOutReason := by
  unfold countTestLine
  exact ⟨rfl, rfl, rfl⟩

theorem stepMetaRest_frame (s : PSt) (l : Line) :
    (stepMetaRest s l).results.ExpectedTests = s.results.ExpectedTests ∧
    (stepMetaRest s l).results.BailOut = s.results.BailOut ∧
    (stepMetaRest s l).results.BailOutReason = s.results.BailOutReason := by
  unfold stepMetaRest
  repeat'
    first
    | exact ⟨rfl, rfl, rfl⟩
    | exact countTestLine_frame _ _ _
    | split
    | (dsimp only; split)

/-- Only a successfully parsed plan line can change `ExpectedTests`. -/
theorem step_expected (s : PSt) (l : Line) (hl : planCapture l = none) :
    (step s l).results.ExpectedTests = s.results.ExpectedTests := by
  obtain ⟨st, ct, ftp, fat, res⟩ := s
  unfold step
  cases st <;> dsimp only
  · unfold stepFindVersion
    repeat' first | rfl | split | (dsimp only; split)
  · unfold stepMeta
    split
    · rfl
    · split
      · rename_i ds heq
        exfalso
        split at heq
        · cases heq
        · rw [hl] at heq
          cases heq
      · exact (stepMetaRest_frame _ _).1
  · unfold stepYaml
    repeat' first | rfl | split | (dsimp only; split)

/-- Only a bail-out line can change the abort flag or the reason. -/
theorem step_bail_frame (s : PSt) (l : Line) (hl : bailOutCapture l = none) :
    (step s l).results.BailOut = s.results.BailOut ∧
    (step s l).results.BailOutReason = s.results.BailOutReason := by
  obtain ⟨st, ct, ftp, fat, res⟩ := s
  unfold step
  cases st <;> dsimp only
  · unfold stepFindVersion
    repeat' first | exact ⟨rfl, rfl⟩ | split | (dsimp only; split)
  · unfold stepMeta
    split
    · rename_i cap heq
      rw [hl] at heq
      cases heq
    · split
      · dsimp only
        split
        · exact ⟨(stepMetaRest_frame _ _).2.1, (stepMetaRest_frame _ _).2.2⟩
        · exact ⟨rfl, rfl⟩
      · exact ⟨(stepMetaRest_frame _ _).2.1, (stepMetaRest_frame _ _).2.2⟩
  · unfold stepYaml
    repeat' first | exact ⟨rfl, rfl⟩ | split | (dsimp only; split)

/-- The abort flag is never reset once set. -/
theorem step_bail_monotone (s : PSt) (l : Line) (h : s.results.BailOut = true) :
    (step s l).results.BailOut = true := by
  obtain ⟨st, ct, ftp, fat, res⟩ := s
  dsimp only at h
  unfold step
  cases st <;> dsimp only
  · unfold stepFindVersion
    repeat' first | exact h | split | (dsimp only; split)
  · unfold stepMeta
    split
    · rfl
    · split
      · dsimp only
        split
        · rw [(stepMetaRest_frame _ _).2.1]
          exact h
        · exact h
      · rw [(stepMetaRest_frame _ _).2.1]
        exact h
  · unfold stepYaml
    repeat' first | exact h | split | (dsimp only; split)

/-- The first-plan guard flag is never modified by any line. -/
theorem step_foundTestPlan (s : PSt) (l : Line) :
    (step s l).foundTestPlan = s.foundTestPlan := by
  obtain ⟨st, ct, ftp, fat, res⟩ := s
  unfold step stepFindVersion stepMeta stepMetaRest countTestLine stepYaml
  cases st <;> dsimp only <;>
    repeat' first | rfl | split | (dsimp only; split)

theorem foldl_foundTestPlan (ls : List Line) (s : PSt) :
    (ls.foldl step s).foundTestPlan = s.foundTestPlan := by
  induction ls generalizing s with
  | nil => rfl
  | cons a t ih => rw [List.foldl_cons, ih, step_foundTestPlan]

theorem foldl_expected (ls : List Line) (h : ∀ l ∈ ls, planCapture l = none) (s : PSt) :
    (ls.foldl step s).results.ExpectedTests = s.results.ExpectedTests := by
  induction ls generalizing s with
  | nil => rfl
  | cons a t ih =>
    rw [List.foldl_cons, ih (fun l hl => h l (List.mem_cons_of_mem _ hl)) _,
      step_expected _ _ (h a (List.mem_cons_self _ _))]

theorem foldl_bail_frame (ls : List Line) (h : ∀ l ∈ ls, bailOutCapture l = none) (s : PSt) :
    (ls.foldl step s).results.BailOut = s.results.BailOut ∧
    (ls.foldl step s).results.BailOutReason = s.results.BailOutReason := by
  induction ls generalizing s with
  | nil => exact ⟨rfl, rfl⟩
  | cons a t ih =>
    have h1 := step_bail_frame s a (h a (List.mem_cons_self _ _))
    have h2 := ih (fun l hl => h l (List.mem_cons_of_mem _ hl)) (step s a)
    rw [List.foldl_cons]
    exact ⟨h2.1.trans h1.1, h2.2.trans h1.2⟩

/-- The final bookkeeping of `Parse` changes none of the scalar fields. -/
theorem parse_proj (lines : List Line) :
    (Parse lines).ExpectedTests = ((lines.foldl step (initSt lines)).results.ExpectedTests) ∧
    (Parse lines).TotalTests = ((lines.foldl step (initSt lines)).results.TotalTests) ∧
    (Parse lines).BailOut = ((lines.foldl step (initSt lines)).results.BailOut) ∧
    (Parse lines).BailOutReason = ((lines.foldl step (initSt lines)).results.BailOutReason) := by
  unfold Parse
  dsimp only
  split <;> exact ⟨rfl, rfl, rfl, rfl⟩

/-! ### Plan lines cannot be bail-out lines -/

theorem planCapture_head {p ds : Line} (hp : planCapture p = some ds) :
    ∃ c t, p = c :: t ∧ c.isDigit = true := by
  cases p with
  | nil => simp [planCapture] at hp
  | cons c t =>
    by_cases hc : c.isDigit = true
    · exact ⟨c, t, rfl, hc⟩
    · rw [Bool.not_eq_true] at hc
      simp [planCapture, List.takeWhile_cons, hc] at hp

theorem plan_not_bail {p ds : Line} (hp : planCapture p = some ds) :
    bailOutCapture p = none := by
  obtain ⟨c, t, rfl, hc⟩ := planCapture_head hp
  have hne : c ≠ 'B' := by
    intro he
    rw [he] at hc
    exact absurd hc (by decide)
  unfold bailOutCapture
  have hlit : "Bail out!".toList = 'B' :: "ail out!".toList := rfl
  rw [hlit]
  have hs : stripLit ('B' :: "ail out!".toList) (c :: t) = none := by
    unfold stripLit
    rw [if_neg hne]
  rw [hs]

/-! ### The step on distinguished lines in the test-stream state -/

/-- A bail-out line in the test-stream state: set the flag, store the
reason, change nothing else. -/
theorem step_bail (s : PSt) (l r : Line)
    (hs : s.state = MState.storeTestMetadata)
    (hb : bailOutCapture l = some r) :
    step s l = { s with results := { s.results with BailOut := true, BailOutReason := r } } := by
  obtain ⟨st, ct, ftp, fat, res⟩ := s
  dsimp only at hs
  subst hs
  unfold step
  dsimp only
  unfold stepMeta
  rw [hb]

/-- Any plan-shaped line seen in the test-stream state with the (never
set) first-plan guard off overwrites `ExpectedTests` with the value
`strconv.Atoi` returns for its count: the parsed count when it is in
range, the clamp value 9223372036854775807 when it overflows, because the
assignment happens before the error check. -/
theorem step_plan_shaped (s : PSt) (p ds : Line)
    (hs : s.state = MState.storeTestMetadata)
    (hftp : s.foundTestPlan = false)
    (hp : planCapture p = some ds) :
    (step s p).results.ExpectedTests = (goAtoi ds).1 := by
  obtain ⟨st, ct, ftp, fat, res⟩ := s
  dsimp only at hs hftp
  subst hs
  subst hftp
  unfold step
  dsimp only
  unfold stepMeta
  rw [plan_not_bail hp]
  dsimp only
  rw [if_neg (by decide : ¬(false = true))]
  rw [hp]
  dsimp only
  split
  · rw [(stepMetaRest_frame _ _).1]
  · rfl

/-! ### C5: the last plan-shaped line determines the declared plan -/

/-- The input of the C5 counterexample: after the well-formed plans `1..3`
and `1..5`, a plan-shaped line whose count overflows int64. -/
def c5cexLines : List Line :=
  (["TAP version 13", "1..3", "1..5", "1..99999999999999999999"]).map String.toList

/-- C5 fails on the code: the last plan line whose count parses
successfully declares 5, yet the final `ExpectedTests` is the int64 clamp
value 9223372036854775807, because `strconv.Atoi`'s result is assigned
before its error is checked, so an overflowing plan-shaped line also
overwrites `ExpectedTests`. -/
theorem c5_counterexample :
    (Parse c5cexLines).ExpectedTests = 9223372036854775807 ∧
      goAtoi "5".toList = (5, true) ∧
      (goAtoi "99999999999999999999".toList).2 = false ∧
      ((9223372036854775807 : Int) ≠ 5) := by
  decide

/-- C5, amended.  The final `ExpectedTests` is determined by the last
plan-shaped line `<digits>..<digits>` processed in the test-stream state,
whatever plan lines came before (the first-plan guard never activates,
because `foundTestPlan` is never set): it is that line's declared count
when the count parses within int64, and the clamp value
9223372036854775807 when the count overflows.  "Last valid plan wins"
holds only when no plan-shaped line follows the last valid one. -/
theorem c5_amended_last_plan_shaped (pre post : List Line) (p ds : Line)
    (hstate : (List.foldl step (initSt (pre ++ p :: post)) pre).state = MState.storeTestMetadata)
    (hp : planCapture p = some ds)
    (hpost : ∀ l ∈ post, planCapture l = none) :
    (Parse (pre ++ p :: post)).ExpectedTests = (goAtoi ds).1 := by
  have hftp : (List.foldl step (initSt (pre ++ p :: post)) pre).foundTestPlan = false := by
    rw [foldl_foundTestPlan]
    rfl
  have h1 := step_plan_shaped _ p ds hstate hftp hp
  rw [(parse_proj _).1, List.foldl_append, List.foldl_cons,
    foldl_expected post hpost, h1]

/-- Witness for the amended C5 theorem, exercising both the overwrite of
the earlier plans and the overflow clamp: the final plan-shaped line of
the counterexample input determines the final value. -/
theorem c5_amended_witness :
    (Parse (["TAP version 13".toList, "1..3".toList, "1..5".toList] ++ "1..99999999999999999999".toList :: ([] : List Line))).ExpectedTests =
      (goAtoi "99999999999999999999".toList).1 :=
  c5_amended_last_plan_shaped ["TAP version 13".toList, "1..3".toList, "1..5".toList]
    [] "1..99999999999999999999".toList "99999999999999999999".toList
    (by decide) (by decide) (by decide)

/-! ### C10: the abort flag is sticky and the last reason wins -/

/-- C10.  Once a line has set the abort flag no later line resets it, and
a bail-out line processed in the test-stream state with no later
bail-out-shaped line determines the final reason. -/
theorem c10_bail_sticky_last_reason :
    (∀ (s : PSt) (l : Line), s.results.BailOut = true → (step s l).results.BailOut = true) ∧
    (∀ (pre post : List Line) (b r : Line),
      (List.foldl step (initSt (pre ++ b :: post)) pre).state = MState.storeTestMetadata →
      bailOutCapture b = some r →
      (∀ l ∈ post, bailOutCapture l = none) →
      (Parse (pre ++ b :: post)).BailOut = true ∧
        (Parse (pre ++ b :: post)).BailOutReason = r) := by
  refine ⟨step_bail_monotone, ?_⟩
  intro pre post b r hstate hb hpost
  have h1 := step_bail _ b r hstate hb
  obtain ⟨hB, hR⟩ := foldl_bail_frame post hpost
    (step (List.foldl step (initSt (pre ++ b :: post)) pre) b)
  constructor
  · rw [(parse_proj _).2.2.1, List.foldl_append, List.foldl_cons, hB, h1]
  · rw [(parse_proj _).2.2.2, List.foldl_append, List.foldl_cons, hR, h1]

/-- Witness for the C10 theorem: two abort lines, the second reason is
kept. -/
theorem c10_witness :
    (Parse (["TAP version 13".toList, "Bail out! first".toList] ++ "Bail out! second".toList :: ["ok".toList])).BailOut = true ∧
      (Parse (["TAP version 13".toList, "Bail out! first".toList] ++ "Bail out! second".toList :: ["ok".toList])).BailOutReason = "second".toList :=
  c10_bail_sticky_last_reason.2 ["TAP version 13".toList, "Bail out! first".toList]
    ["ok".toList] "Bail out! second".toList "second".toList
    (by decide) (by decide) (by decide)

/-! ### C6, amended: the bail-out step -/

/-- The bail-out capture never carries leading regexp whitespace. -/
theorem bailOutCapture_no_leading_space {l r : Line} (hb : bailOutCapture l = some r) :
    r.dropWhile goIsSpace = r := by
  unfold bailOutCapture at hb
  split at hb
  · cases hb
  · rename_i rest heq
    dsimp only at hb
    split_ifs at hb with h1 h2
    · rw [Option.some_inj] at hb
      subst hb
      rfl
    · rw [Option.some_inj] at hb
      subst hb
      exact dropWhile_dropWhile _ _

/-- C6, amended.  A line matching the abort pattern, processed in the
test-stream state, sets the abort flag, stores as reason the text from
the first non-whitespace character after the marker to the end of the line
(leading whitespace stripped, trailing whitespace kept, empty when nothing
follows), and changes nothing else: the state, the staged test and every
counter are untouched, so earlier tests still count and processing
continues in the same state. -/
theorem c6_amended_bail_step (s : PSt) (l r : Line)
    (hs : s.state = MState.storeTestMetadata)
    (hb : bailOutCapture l = some r) :
    step s l = { s with results := { s.results with BailOut := true, BailOutReason := r } } ∧
      r.dropWhile goIsSpace = r :=
  ⟨step_bail s l r hs hb, bailOutCapture_no_leading_space hb⟩

/-- A concrete machine state in the test-stream phase, used by witnesses. -/
def metaSt : PSt :=
  { initSt [] with state := MState.storeTestMetadata }

/-- Witness for the amended C6 theorem. -/
theorem c6_amended_witness :
    step metaSt "Bail out!  why  ".toList = { metaSt with results := { metaSt.results with BailOut := true, BailOutReason := "why  ".toList } } ∧
      ("why  ".toList).dropWhile goIsSpace = "why  ".toList := by
  refine ⟨?_, ?_⟩
  · exact (c6_amended_bail_step metaSt "Bail out!  why  ".toList "why  ".toList (by decide) (by decide)).1
  · exact (c6_amended_bail_step metaSt "Bail out!  why  ".toList "why  ".toList (by decide) (by decide)).2


/-! ### C7: data-block handling -/

theorem yamlStart_head {l : Line} (h : yamlStartMatch l = true) :
    ∃ c t, l = c :: t ∧ (goIsSpace c = true ∨ c = '-') := by
  unfold yamlStartMatch at h
  rw [decide_eq_true_eq] at h
  cases l with
  | nil => simp at h
  | cons c t =>
    by_cases hsp : goIsSpace c = true
    · exact ⟨c, t, rfl, Or.inl hsp⟩
    · rw [Bool.not_eq_true] at hsp
      rw [List.dropWhile_cons, hsp] at h
      rw [if_neg (by decide)] at h
      refine ⟨c, t, rfl, Or.inr ?_⟩
      have hlit : "---".toList = '-' :: "--".toList := rfl
      rw [hlit] at h
      exact List.head_eq_of_cons_eq h

theorem yamlStart_not_bail {l : Line} (h : yamlStartMatch l = true) :
    bailOutCapture l = none := by
  obtain ⟨c, t, rfl, hc⟩ := yamlStart_head h
  have hne : c ≠ 'B' := by
    rcases hc with hc | hc
    · exact ne_of_goIsSpace hc (by decide)
    · rw [hc]
      decide
  unfold bailOutCapture
  have hlit : "Bail out!".toList = 'B' :: "ail out!".toList := rfl
  rw [hlit]
  have hs : stripLit ('B' :: "ail out!".toList) (c :: t) = none := by
    unfold stripLit
    rw [if_neg hne]
  rw [hs]

theorem yamlStart_not_plan {l : Line} (h : yamlStartMatch l = true) :
    planCapture l = none := by
  obtain ⟨c, t, rfl, hc⟩ := yamlStart_head h
  have hd : c.isDigit = false := by
    rcases hc with hc | hc
    · exact isDigit_eq_false_of_goIsSpace hc
    · rw [hc]
      decide
  simp [planCapture, List.takeWhile_cons, hd]

theorem yamlStart_not_test {l : Line} (h : yamlStartMatch l = true) :
    testLineCapture l = none := by
  obtain ⟨c, t, rfl, hc⟩ := yamlStart_head h
  have hn : c ≠ 'n' := by
    rcases hc with hc | hc
    · exact ne_of_goIsSpace hc (by decide)
    · rw [hc]
      decide
  have ho : c ≠ 'o' := by
    rcases hc with hc | hc
    · exact ne_of_goIsSpace hc (by decide)
    · rw [hc]
      decide
  have hok : okTail (c :: t) = none := by
    unfold okTail
    have hlit : "ok".toList = 'o' :: "k".toList := rfl
    rw [hlit]
    have hs : stripLit ('o' :: "k".toList) (c :: t) = none := by
      unfold stripLit
      rw [if_neg ho]
    rw [hs]
  unfold testLineCapture
  have hlit : "not ".toList = 'n' :: "ot ".toList := rfl
  rw [hlit]
  have hs : stripLit ('n' :: "ot ".toList) (c :: t) = none := by
    unfold stripLit
    rw [if_neg hn]
  rw [hs, hok]
  rfl

/-- C7.  Inside a data block, every line that is not the end delimiter is
appended verbatim plus a newline to the staged test record and nothing
else changes (so such lines are never counted or classified); the end
delimiter only switches the state back and is not stored; a data-block
line with no staged test is dropped silently; and the start delimiter,
seen in the test-stream state, only switches the state to the data-block
state and is not stored. -/
theorem c7_data_block :
    (∀ (s : PSt) (l : Line), s.state = MState.storeYaml → yamlStopMatch l = true →
        step s l = { s with state := MState.storeTestMetadata }) ∧
    (∀ (s : PSt) (l : Line) (t : Test), s.state = MState.storeYaml → yamlStopMatch l = false →
        s.currentTest = some t →
        step s l = { s with currentTest := some { t with YamlBytes := t.YamlBytes ++ l ++ ['\n'] } }) ∧
    (∀ (s : PSt) (l : Line), s.state = MState.storeYaml → yamlStopMatch l = false →
        s.currentTest = none → step s l = s) ∧
    (∀ (s : PSt) (l : Line), s.state = MState.storeTestMetadata → yamlStartMatch l = true →
        step s l = { s with state := MState.storeYaml }) := by
  refine ⟨?_, ?_, ?_, ?_⟩
  · intro s l hs hstop
    obtain ⟨st, ct, ftp, fat, r⟩ := s
    dsimp only at hs
    subst hs
    unfold step stepYaml
    simp [hstop]
  · intro s l t hs hstop hct
    obtain ⟨st, ct, ftp, fat, r⟩ := s
    dsimp only at hs hct
    subst hs
    subst hct
    unfold step stepYaml
    simp [hstop]
  · intro s l hs hstop hct
    obtain ⟨st, ct, ftp, fat, r⟩ := s
    dsimp only at hs hct
    subst hs
    subst hct
    unfold step stepYaml
    simp [hstop]
  · intro s l hs hy
    obtain ⟨st, ct, ftp, fat, r⟩ := s
    dsimp only at hs
    subst hs
    unfold step stepMeta
    rw [yamlStart_not_bail hy]
    dsimp only
    have hplan : (if ftp then none else planCapture l) = (none : Option Line) := by
      cases ftp
      · exact yamlStart_not_plan hy
      · rfl
    rw [hplan]
    unfold stepMetaRest
    rw [yamlStart_not_test hy]
    dsimp only
    rw [hy]
    rfl

/-- A concrete machine state in the data-block phase, used by witnesses. -/
def yamlSt : PSt :=
  { initSt [] with state := MState.storeYaml, currentTest := some blankTest }

/-- Witness for the C7 theorem. -/
theorem c7_witness :
    (step yamlSt "  key: 1".toList = { yamlSt with currentTest := some { blankTest with YamlBytes := blankTest.YamlBytes ++ "  key: 1".toList ++ ['\n'] } }) ∧
      (step metaSt "  ---".toList = { metaSt with state := MState.storeYaml }) :=
 by
  refine ⟨?_, ?_⟩
  · exact c7_data_block.2.1 yamlSt "  key: 1".toList blankTest (by decide) (by decide) (by decide)
  · exact c7_data_block.2.2.2 metaSt "  ---".toList (by decide) (by decide)

/-! ### C4, amended: at most one outcome flag per finalized record -/

/-- How many of the four outcome flags of a test record are set. -/
def flagCount (t : Test) : Nat :=
  (if t.Passed then 1 else 0) + (if t.Failed then 1 else 0) +
  (if t.Skipped then 1 else 0) + (if t.Todo then 1 else 0)

/-- Every stored record and the staged record carry at most one flag. -/
def FlagInv (s : PSt) : Prop :=
  (∀ t ∈ s.results.Tests, flagCount t ≤ 1) ∧
  (∀ t, s.currentTest = some t → flagCount t ≤ 1)

theorem flagInv_stage {s : PSt} (h : FlagInv s) :
    FlagInv (match s.currentTest with
             | some t => { s with results := { s.results with Tests := s.results.Tests ++ [t] } }
             | none => s) := by
  split
  · rename_i t heq
    refine ⟨?_, ?_⟩
    · intro u hu
      dsimp only at hu
      rcases List.mem_append.mp hu with h1 | h1
      · exact h.1 u h1
      · rcases List.mem_singleton.mp h1 with rfl
        exact h.2 _ heq
    · intro u hu
      exact h.2 u hu
  · exact h

theorem countTestLine_flagInv {s : PSt} (b : Bool) (c : Line)
    (h : FlagInv s) : FlagInv (countTestLine s b c) := by
  unfold countTestLine
  dsimp only
  refine ⟨h.1, ?_⟩
  intro t ht
  dsimp only at ht
  rw [Option.some_inj] at ht
  subst ht
  cases h' : outcomeOf b (optionalParts c).dirWord <;> simp [flagCount, h']

theorem stepMetaRest_flagInv {s : PSt} (l : Line) (h : FlagInv s) :
    FlagInv (stepMetaRest s l) := by
  unfold stepMetaRest
  split
  · dsimp only
    split
    · refine ⟨(flagInv_stage h).1, ?_⟩
      intro u hu
      dsimp only at hu
      rw [Option.some_inj] at hu
      subst hu
      decide
    · exact countTestLine_flagInv _ _ (flagInv_stage h)
  · split
    · exact h
    · split
      · dsimp only
        split
        · exact h
        · split
          · rename_i t heq
            refine ⟨h.1, ?_⟩
            intro u hu
            dsimp only at hu
            rw [Option.some_inj] at hu
            subst hu
            have h2 := h.2 t heq
            simpa [flagCount] using h2
          · exact h
      · exact h

theorem stepMeta_flagInv {s : PSt} (l : Line) (h : FlagInv s) :
    FlagInv (stepMeta s l) := by
  unfold stepMeta
  split
  · exact h
  · split
    · dsimp only
      split
      · exact stepMetaRest_flagInv _ h
      · exact h
    · exact stepMetaRest_flagInv _ h

theorem stepYaml_flagInv {s : PSt} (l : Line) (h : FlagInv s) :
    FlagInv (stepYaml s l) := by
  unfold stepYaml
  split
  · exact h
  · split
    · rename_i t heq
      refine ⟨h.1, ?_⟩
      intro u hu
      dsimp only at hu
      rw [Option.some_inj] at hu
      subst hu
      have h2 := h.2 t heq
      simpa [flagCount] using h2
    · exact h

theorem stepFindVersion_flagInv {s : PSt} (l : Line) (h : FlagInv s) :
    FlagInv (stepFindVersion s l) := by
  unfold stepFindVersion
  split
  · exact h
  · dsimp only
    split
    · exact h
    · exact h

theorem step_flagInv {s : PSt} (l : Line) (h : FlagInv s) :
    FlagInv (step s l) := by
  unfold step
  cases s.state
  · exact stepFindVersion_flagInv _ h
  · exact stepMeta_flagInv _ h
  · exact stepYaml_flagInv _ h

theorem foldl_flagInv (ls : List Line) (s : PSt) (h : FlagInv s) :
    FlagInv (ls.foldl step s) := by
  induction ls generalizing s with
  | nil => exact h
  | cons a t ih => exact ih _ (step_flagInv _ h)

/-- C4, amended.  Every test record of a finished parse has at most one of
the four outcome flags set (records finalized from counted test-result
lines carry exactly one, while records staged after the run-cap has been
reached carry none, as the counterexample shows). -/
theorem c4_amended_at_most_one_flag (lines : List Line) :
    ∀ t ∈ (Parse lines).Tests, flagCount t ≤ 1 := by
  have h0 : FlagInv (initSt lines) := by
    refine ⟨?_, ?_⟩
    · intro t ht
      simp [initSt] at ht
    · intro t ht
      simp [initSt] at ht
  have h : FlagInv (lines.foldl step (initSt lines)) := foldl_flagInv _ _ h0
  unfold Parse
  dsimp only
  split
  · rename_i t heq
    intro u hu
    dsimp only at hu
    rcases List.mem_append.mp hu with h1 | h1
    · exact h.1 u h1
    · rcases List.mem_singleton.mp h1 with rfl
      exact h.2 _ heq
  · exact h.1

/-- Witness for the amended C4 theorem at a concrete input. -/
theorem c4_amended_witness :
    flagCount ((Parse c4cexLines).Tests.getD 0 blankTest) ≤ 1 :=
  c4_amended_at_most_one_flag c4cexLines _ (by decide)

/-! ### C3, amended: the run-cap bound for a plan that precedes the tests -/

/-- Before any test-result or plan-shaped line has been seen: no plan, no
counted test, cap flag off. -/
def PreInv (s : PSt) : Prop :=
  s.results.ExpectedTests = -1 ∧ s.results.TotalTests = 0 ∧ s.foundAllTests = false

theorem step_preInv {s : PSt} (l : Line)
    (ht : testLineCapture l = none) (hl : planCapture l = none)
    (h : PreInv s) : PreInv (step s l) := by
  obtain ⟨st, ct, ftp, fat, res⟩ := s
  unfold step
  cases st <;> dsimp only
  · unfold stepFindVersion
    repeat' first | exact h | split | (dsimp only; split)
  · unfold stepMeta
    split
    · exact h
    · split
      · rename_i ds heq
        exfalso
        split at heq
        · cases heq
        · rw [hl] at heq
          cases heq
      · unfold stepMetaRest
        rw [ht]
        dsimp only
        split
        · exact h
        · split
          · repeat' first | exact h | split | (dsimp only; split)
          · exact h
  · unfold stepYaml
    repeat' first | exact h | split | (dsimp only; split)

theorem foldl_preInv (ls : List Line)
    (hls : ∀ l ∈ ls, testLineCapture l = none ∧ planCapture l = none) (s : PSt)
    (h : PreInv s) : PreInv (ls.foldl step s) := by
  induction ls generalizing s with
  | nil => exact h
  | cons a t ih =>
    rw [List.foldl_cons]
    exact ih (fun l hl => hls l (List.mem_cons_of_mem _ hl)) _
      (step_preInv a (hls a (List.mem_cons_self _ _)).1 (hls a (List.mem_cons_self _ _)).2 h)

/-- After the plan `n` has been recorded (or missed): either no plan was
ever stored and the cap flag is off, or the plan is `n` and the counted
total respects the cap. -/
def CapInv (n : Int) (s : PSt) : Prop :=
  (s.results.ExpectedTests = -1 ∧ s.foundAllTests = false ∧ 0 ≤ s.results.TotalTests) ∨
  (s.results.ExpectedTests = n ∧
    ((s.foundAllTests = true ∧ s.results.TotalTests = n) ∨
     (s.foundAllTests = false ∧ 0 ≤ s.results.TotalTests ∧ s.results.TotalTests < n)))

theorem stepMetaRest_capInv (n : Int) {s : PSt} (l : Line) (h : CapInv n s) :
    CapInv n (stepMetaRest s l) := by
  obtain ⟨st, ct, ftp, fat, res⟩ := s
  unfold CapInv at h ⊢
  dsimp only at h
  unfold stepMetaRest
  split
  · dsimp only
    split
    · split
      · exact h
      · exact h
    · rename_i hfat
      rw [Bool.not_eq_true] at hfat
      subst hfat
      split
      all_goals
        unfold countTestLine
        dsimp only
        rcases h with ⟨hE, hF, hT⟩ | ⟨hE, ⟨hF, hT⟩ | ⟨hF, hT0, hT⟩⟩
        · left
          refine ⟨hE, ?_, by omega⟩
          rw [hE, if_neg (by omega)]
        · exact absurd hF (by decide)
        · right
          refine ⟨hE, ?_⟩
          rw [hE]
          by_cases hq : res.TotalTests + 1 = n
          · rw [if_pos hq]
            left
            exact ⟨rfl, by omega⟩
          · rw [if_neg hq]
            right
            exact ⟨rfl, by omega, by omega⟩
  · split
    · exact h
    · split
      · dsimp only
        repeat' first | exact h | split | (dsimp only; split)
      · exact h

theorem step_capInv (n : Int) {s : PSt} (l : Line) (hl : planCapture l = none)
    (h : CapInv n s) : CapInv n (step s l) := by
  obtain ⟨st, ct, ftp, fat, res⟩ := s
  unfold step
  cases st <;> dsimp only
  · unfold stepFindVersion
    repeat' first | exact h | split | (dsimp only; split)
  · unfold stepMeta
    split
    · exact h
    · split
      · rename_i ds heq
        exfalso
        split at heq
        · cases heq
        · rw [hl] at heq
          cases heq
      · exact stepMetaRest_capInv n _ h
  · unfold stepYaml
    repeat' first | exact h | split | (dsimp only; split)

theorem foldl_capInv (n : Int) (ls : List Line)
    (hls : ∀ l ∈ ls, planCapture l = none) (s : PSt) (h : CapInv n s) :
    CapInv n (ls.foldl step s) := by
  induction ls generalizing s with
  | nil => exact h
  | cons a t ih =>
    rw [List.foldl_cons]
    exact ih (fun l hl => hls l (List.mem_cons_of_mem _ hl)) _
      (step_capInv n a (hls a (List.mem_cons_self _ _)) h)

theorem plan_step_capInv (n : Int) (hn : 1 ≤ n) {s : PSt} (p ds : Line)
    (hp : planCapture p = some ds) (hok : goAtoi ds = (n, true)) (h : PreInv s) :
    CapInv n (step s p) := by
  obtain ⟨st, ct, ftp, fat, res⟩ := s
  unfold PreInv at h
  dsimp only at h
  obtain ⟨hE, hT, hF⟩ := h
  subst hF
  have base : CapInv n (⟨st, ct, ftp, false, res⟩ : PSt) := by
    left
    refine ⟨hE, rfl, ?_⟩
    have h5 : (PSt.mk st ct ftp false res).results.TotalTests = (0 : Int) := hT
    omega
  unfold step
  cases st <;> dsimp only
  · unfold stepFindVersion
    repeat' first | exact base | split | (dsimp only; split)
  · unfold stepMeta
    rw [plan_not_bail hp]
    dsimp only
    cases ftp with
    | true =>
      rw [if_pos rfl]
      exact stepMetaRest_capInv n _ base
    | false =>
      rw [if_neg (by decide)]
      rw [hp]
      dsimp only
      rw [hok]
      dsimp only
      rw [if_pos rfl]
      apply stepMetaRest_capInv
      right
      refine ⟨rfl, Or.inr ⟨rfl, ?_, ?_⟩⟩
      · first
        | omega
        | (dsimp only; omega)
      · first
        | omega
        | (dsimp only; omega)
  · unfold stepYaml
    repeat' first | exact base | split | (dsimp only; split)

/-- C3, amended.  If a plan line declaring `n ≥ 1` tests is the only
plan-shaped line of the input and precedes every test-result line, then
whenever the final `ExpectedTests` is non-negative the counted
`TotalTests` never exceeds it: the run-cap stops further counting.  (As
the counterexample shows, a plan that arrives after test-result lines have
already been counted — and likewise a `0`-count plan — can leave
`TotalTests` above `ExpectedTests`.) -/
theorem c3_amended_run_cap (pre post : List Line) (p ds : Line) (n : Int)
    (hpre : ∀ l ∈ pre, testLineCapture l = none ∧ planCapture l = none)
    (hp : planCapture p = some ds)
    (hok : goAtoi ds = (n, true))
    (hn : 1 ≤ n)
    (hpost : ∀ l ∈ post, planCapture l = none) :
    0 ≤ (Parse (pre ++ p :: post)).ExpectedTests →
      (Parse (pre ++ p :: post)).TotalTests ≤ (Parse (pre ++ p :: post)).ExpectedTests := by
  have h0 : PreInv (initSt (pre ++ p :: post)) := ⟨rfl, rfl, rfl⟩
  have h1 := foldl_preInv pre hpre _ h0
  have h2 := plan_step_capInv n hn p ds hp hok h1
  have h3 := foldl_capInv n post hpost _ h2
  rw [(parse_proj _).1, (parse_proj _).2.1, List.foldl_append, List.foldl_cons]
  unfold CapInv at h3
  rcases h3 with ⟨hE, hF, hT⟩ | ⟨hE, h4⟩
  · rw [hE]
    intro hge
    exact absurd hge (by omega)
  · rw [hE]
    intro hge
    rcases h4 with ⟨hF, hT⟩ | ⟨hF, hT0, hT⟩
    · rw [hT]
    · omega

/-- Witness for the amended C3 theorem. -/
theorem c3_amended_witness :
    (Parse (["TAP version 13".toList] ++ "1..2".toList :: ["ok".toList, "ok".toList, "ok".toList])).TotalTests ≤
      (Parse (["TAP version 13".toList] ++ "1..2".toList :: ["ok".toList, "ok".toList, "ok".toList])).ExpectedTests :=
  c3_amended_run_cap ["TAP version 13".toList] ["ok".toList, "ok".toList, "ok".toList]
    "1..2".toList "2".toList 2 (by decide) (by decide) (by decide) (by decide)
    (by decide) (by decide)

/-! ### Cross-checks of the embedding against the package test-suite -/

/-- The input of the directive test: skip/todo directives are counted but
excluded from pass/fail. -/
def goTestDirectives : List Line :=
  (["TAP version 13", "1..5", "ok", "not ok # skip because we feel like skipping",
    "ok # SKIP", "not ok # todo", "ok # TODO working on this one"]).map String.toList

theorem goTest_directives_report :
    (Parse goTestDirectives).String =
      " Overall result: PASS\nTotal tests run: 5\n   Passed tests: 1\n  Skipped tests: 2\n     TODO tests: 2\n".toList := by
  decide

theorem goTest_directives_texts :
    ((Parse goTestDirectives).Tests.map Test.DirectiveText) =
      (["", "skip because we feel like skipping", "SKIP", "todo",
        "TODO working on this one"]).map String.toList := by
  decide

/-- The input of the malformed-plans test: unparseable or overflowing plan
lines are skipped and the last well-formed plan wins. -/
def goTestPlans : List Line :=
  (["TAP version 13", "1..N",
    "1..400000000000000000000000000000000000000000000000000000000000000000000000000",
    "1..4", "1..M", "ok", "ok", "ok", "ok", "ok"]).map String.toList

theorem goTest_malformed_plans :
    (Parse goTestPlans).ExpectedTests = 4 ∧ (Parse goTestPlans).TotalTests = 4 ∧
      (Parse goTestPlans).IsPassing = true := by
  decide

/-- The input of the data-block test. -/
def goTestYaml : List Line :=
  (["TAP version 13", "ok", "  ---", "  yaml:", "    foo: 1", "    bar: 2",
    "  ...", "ok"]).map String.toList

theorem goTest_yaml_bytes :
    ((Parse goTestYaml).Tests.map Test.YamlBytes) =
      (["  yaml:\n    foo: 1\n    bar: 2\n", ""]).map String.toList ∧
      (Parse goTestYaml).TotalTests = 2 := by
  decide

/-- The input of the whitespace-only bail-out test. -/
def goTestBail : List Line :=
  (["TAP version 13", "ok", "ok", "ok", "Bail out! "]).map String.toList

theorem goTest_bail_report :
    (Parse goTestBail).BailOutReason = [] ∧ (Parse goTestBail).TotalTests = 3 ∧
      (Parse goTestBail).String =
        " Overall result: FAIL\n   Passed tests: 3\n     Bailed out: (no reason given)\n".toList := by
  decide

end Tap13
